import Mathlib

/-!
Verification of the CrowdQA confusion-tracker frontend logic.

The statistics pipeline (`TADashboard.tsx` lines 65-84, `SummaryReport.tsx`
lines 77-102) maps a list of per-minute bins to their click counts, then
computes a mean, a population variance, a standard deviation and a
confusion threshold `mean + 1.2 * stdDev`; bins whose count reaches the
threshold are flagged as peaks.  JavaScript numbers are modelled as real
numbers, millisecond timestamps as integers.  Definitions come first,
theorems follow.
-/

namespace CrowdQA

/-- A bin record as delivered by the backend (`BinRecord` in
`SummaryReport.tsx`): interval bounds in minutes, click count, distinct
student count and percentage of class. -/
structure Bin where
  bin_start_minute : ℤ
  bin_end_minute : ℤ
  click_count : ℝ
  unique_students : ℝ
  percentage : ℝ

/-- The projection `chartData`/`summary.data` apply to each bin; the
statistics are computed over this list (`counts` in both components). -/
def binCounts (bins : List Bin) : List ℝ :=
  bins.map (fun b => b.click_count)

/-- Embeds `counts.length ? counts.reduce((a, b) => a + b, 0) /
counts.length : 0` from `TADashboard.tsx` line 67 / `SummaryReport.tsx`
lines 89-90. -/
noncomputable def sourceMean (counts : List ℝ) : ℝ :=
  if counts.length = 0 then 0
  else counts.foldl (fun a b => a + b) 0 / counts.length

/-- Embeds `counts.length ? counts.reduce((sum, val) => sum +
(val - mean) ** 2, 0) / counts.length : 0` from `TADashboard.tsx` lines
68-70 / `SummaryReport.tsx` lines 92-96. -/
noncomputable def sourceVariance (counts : List ℝ) : ℝ :=
  if counts.length = 0 then 0
  else counts.foldl (fun sum val => sum + (val - sourceMean counts) ^ 2) 0 /
    counts.length

/-- Embeds `const stdDev = Math.sqrt(variance)` (`TADashboard.tsx`
line 71). -/
noncomputable def sourceStdDev (counts : List ℝ) : ℝ :=
  Real.sqrt (sourceVariance counts)

/-- Embeds `const threshold = mean + 1.2 * stdDev` (`TADashboard.tsx`
line 72). -/
noncomputable def sourceThreshold (counts : List ℝ) : ℝ :=
  sourceMean counts + 1.2 * sourceStdDev counts

/-- Modelled from the spec: the population mean of a list of numbers
(sum divided by length; 0 for the empty list by the `0 / 0 = 0`
convention). -/
noncomputable def popMean (l : List ℝ) : ℝ := l.sum / l.length

/-- Modelled from the spec: the population variance, the average of the
squared deviations from the population mean (denominator `n`, not
`n - 1`). -/
noncomputable def popVariance (l : List ℝ) : ℝ :=
  ((l.map (fun x => (x - popMean l) ^ 2)).sum) / l.length

/-- Modelled from the spec: the population standard deviation. -/
noncomputable def popStdDev (l : List ℝ) : ℝ := Real.sqrt (popVariance l)

/-- Embeds `chartData.filter(d => d.count >= threshold)`
(`TADashboard.tsx` line 82); the same inclusive comparison drives `high`
in `SummaryReport.tsx` lines 202 and 229-231. -/
noncomputable def flagPeaks (bins : List Bin) (threshold : ℝ) : List Bin :=
  bins.filter (fun b => decide (b.click_count ≥ threshold))

/-- A note record as delivered by the backend (`NoteRecord` in
`SummaryReport.tsx`); `created_at` models `Date.parse(n.created_at)`,
milliseconds since the epoch. -/
structure NoteRec where
  anon_id : ℤ
  note : String
  created_at : ℤ

/-- A note with the extra `minutesElapsed` field spread in by
`notesWithTimestamps` (`TADashboard.tsx` lines 86-95). -/
structure AnnotatedNote where
  anon_id : ℤ
  note : String
  created_at : ℤ
  minutesElapsed : ℤ

/-- Embeds the spread `minutesElapsed: Math.floor((Date.parse(n.created_at)
- start) / 60000)` (`TADashboard.tsx` lines 89-93); `Math.floor` of the
exact quotient is integer floor division. -/
def annotateNote (start : ℤ) (n : NoteRec) : AnnotatedNote :=
  { anon_id := n.anon_id, note := n.note, created_at := n.created_at,
    minutesElapsed := (n.created_at - start).fdiv 60000 }

/-- Embeds `notes.map(...).sort((a, b) => a.minutesElapsed -
b.minutesElapsed)` (`TADashboard.tsx` lines 86-95): annotate, then
stable-sort ascending by `minutesElapsed`. -/
def notesWithTimestamps (notes : List NoteRec) (start : ℤ) :
    List AnnotatedNote :=
  (notes.map (annotateNote start)).mergeSort
    (fun a b => decide (a.minutesElapsed ≤ b.minutesElapsed))

/-- JavaScript `Math.max(...args)`: folds the arguments left to right
starting from `-Infinity`; modelled on the extended reals so the empty
call's `-Infinity` result is representable. -/
noncomputable def mathMax (l : List ℝ) : EReal :=
  l.foldl (fun (m : EReal) (x : ℝ) => max m (x : EReal)) ⊥

/-- The summary card `Math.max(...summary.data.map(d => d.percentage))`
(`SummaryReport.tsx` line 158). -/
noncomputable def peakConfusion (bins : List Bin) : EReal :=
  mathMax (bins.map (fun b => b.percentage))

/-- Session lifecycle states (spec §3): not-started → active → ended. -/
inductive SessionState
  | notStarted
  | active
  | ended
deriving DecidableEq

/-- A session record as held by the Session Registry. -/
structure RegSession where
  session_id : ℕ
  state : SessionState
  start_timestamp : Option ℤ
  end_timestamp : Option ℤ

/-- Error taxonomy of the registry (spec §7). -/
inductive RegistryError
  | invalidState
  | notFound
deriving DecidableEq

/-- Modelled from the spec: `activateSession(sessionId)` of the Session
Registry (§4.1).  The server behind `PUT /api/sessions/:id/start`
(called from `SessionCreator.tsx` lines 71-93) is not among the
inspected sources; per the spec the call transitions not-started→active
stamping `start_timestamp = now()`, and fails with `InvalidStateError`
in any other state. -/
def activateSession (s : RegSession) (now : ℤ) :
    Except RegistryError RegSession :=
  match s.state with
  | SessionState.notStarted =>
      Except.ok { s with state := SessionState.active,
                         start_timestamp := some now }
  | _ => Except.error RegistryError.invalidState

/-- Embeds `e.target.value.replace(/\D/g, '').slice(0, 4)` from
`handleInputChange` of the join screen: keep only decimal digits, then
the first four of them. -/
def handleInputChange (raw : List Char) : List Char :=
  (raw.filter Char.isDigit).take 4

/-- The join screen's state: the controlled input's value, the error
banner, and the join requests issued so far (each carrying its code). -/
structure JoinUIState where
  code : List Char
  error : String
  joinRequests : List (List Char)

/-- A user interaction on the join screen: typing (which presents the
field's would-be new value to `handleInputChange`) or submitting. -/
inductive JoinEvent
  | input (raw : List Char)
  | submit

/-- Initial join-screen state: `useState('')` twice and no requests. -/
def joinInit : JoinUIState := { code := [], error := "", joinRequests := [] }

/-- One step of the join screen: `handleInputChange` stores the
sanitized value and clears the error; `handleSubmit` refuses a code
whose length is not 4 and otherwise issues the join request with the
current code. -/
def joinStep (st : JoinUIState) (e : JoinEvent) : JoinUIState :=
  match e with
  | JoinEvent.input raw =>
      { st with code := handleInputChange raw, error := "" }
  | JoinEvent.submit =>
      if st.code.length ≠ 4 then
        { st with error := "Session code must be 4 digits" }
      else
        { st with joinRequests := st.joinRequests ++ [st.code] }

/-- The join screen after a sequence of interactions. -/
def runJoin (evs : List JoinEvent) : JoinUIState :=
  evs.foldl joinStep joinInit

/-- A field value of at most 4 decimal digits. -/
def validCode (c : List Char) : Bool :=
  decide (c.length ≤ 4) && c.all Char.isDigit

/-- A join-request code of exactly 4 decimal digits. -/
def fourDigitCode (c : List Char) : Bool :=
  decide (c.length = 4) && c.all Char.isDigit

/-- Actions the student view can emit while handling a confusion click. -/
inductive FrontendAction
  | alertMsg (msg : String)
  | httpPost (url : String) (payload : String)
  | setCounter (n : ℕ)
  | showFeedback

/-- The click endpoint `http://localhost:3001/api/sessions/:id/click`. -/
def clickUrl (sessionId : ℕ) : String :=
  "http://localhost:3001/api/sessions/" ++ toString sessionId ++ "/click"

/-- The notes endpoint `http://localhost:3001/api/sessions/:id/notes`. -/
def notesUrl (sessionId : ℕ) : String :=
  "http://localhost:3001/api/sessions/" ++ toString sessionId ++ "/notes"

/-- Embeds `handleConfusionClick` (`StudentView.tsx` lines 57-110): with
the polled `active` flag false it alerts and returns before any request;
otherwise (happy path, the server answering `serverCount`) it posts the
click, posts the trimmed note when non-empty, updates the counter and
shows feedback. -/
def handleConfusionClick (active : Bool) (sessionId : ℕ) (anonId : ℕ)
    (note : String) (serverCount : ℕ) : List FrontendAction :=
  if !active then
    [FrontendAction.alertMsg
      ("Session is not active. You cannot submit feedback yet.")]
  else
    [FrontendAction.httpPost (clickUrl sessionId) (toString anonId)] ++
      (if note.trim ≠ "" then
        [FrontendAction.httpPost (notesUrl sessionId) note.trim]
      else []) ++
      [FrontendAction.setCounter serverCount, FrontendAction.showFeedback]

/-- Which emitted actions are network requests. -/
def isNetworkRequest : FrontendAction → Bool
  | FrontendAction.httpPost _ _ => true
  | _ => false

/-- Embeds `disabled={!active}` on the confusion button
(`StudentView.tsx` line 150). -/
def confusionButtonDisabled (active : Bool) : Bool := !active

/-! Theorems. -/

lemma foldl_add_eq_sum (l : List ℝ) : l.foldl (fun a b => a + b) 0 = l.sum := by
  rw [List.sum_eq_foldl]

lemma foldl_sq_eq_sum (l : List ℝ) (m : ℝ) :
    l.foldl (fun sum val => sum + (val - m) ^ 2) 0 =
      ((l.map (fun x => (x - m) ^ 2)).sum) := by
  rw [List.sum_eq_foldl, List.foldl_map]

lemma sourceMean_eq_popMean (counts : List ℝ) :
    sourceMean counts = popMean counts := by
  unfold sourceMean popMean
  rcases Nat.eq_zero_or_pos counts.length with h | h
  · simp [h, List.length_eq_zero.mp h]
  · rw [if_neg (Nat.pos_iff_ne_zero.mp h), foldl_add_eq_sum]

lemma sourceVariance_eq_popVariance (counts : List ℝ) :
    sourceVariance counts = popVariance counts := by
  unfold sourceVariance popVariance
  rcases Nat.eq_zero_or_pos counts.length with h | h
  · simp [h, List.length_eq_zero.mp h]
  · rw [if_neg (Nat.pos_iff_ne_zero.mp h), foldl_sq_eq_sum,
      sourceMean_eq_popMean]

/-- C1. For every list of bins, the statistics computed by the dashboard
and the summary report are the population mean of the bins' click
counts, the population (not sample) standard deviation of those counts,
and the threshold `mean + 1.2 * stdDev`; with an empty bin list all
three are `0`. -/
theorem confusion_stats_are_population_stats (bins : List Bin) :
    sourceMean (binCounts bins) = popMean (binCounts bins) ∧
    sourceStdDev (binCounts bins) = popStdDev (binCounts bins) ∧
    sourceThreshold (binCounts bins) =
      sourceMean (binCounts bins) + 1.2 * sourceStdDev (binCounts bins) ∧
    (bins = [] →
      sourceMean (binCounts bins) = 0 ∧ sourceStdDev (binCounts bins) = 0 ∧
        sourceThreshold (binCounts bins) = 0) := by
  refine ⟨sourceMean_eq_popMean _, ?_, rfl, ?_⟩
  · unfold sourceStdDev popStdDev
    rw [sourceVariance_eq_popVariance]
  · rintro rfl
    simp [binCounts, sourceMean, sourceVariance, sourceStdDev, sourceThreshold]

/-- Witness for C1 at the concrete input `[]`. -/
theorem confusion_stats_are_population_stats_spot :
    sourceThreshold (binCounts []) = 0 :=
  ((confusion_stats_are_population_stats []).2.2.2 rfl).2.2

/-- C2. The peak-flagging computation flags exactly the bins whose click
count is at least the threshold, and a bin whose count equals the
threshold exactly is flagged (inclusive comparison). -/
theorem flagPeaks_iff_count_ge (bins : List Bin) (threshold : ℝ) (b : Bin) :
    (b ∈ flagPeaks bins threshold ↔ b ∈ bins ∧ b.click_count ≥ threshold) ∧
    (b ∈ bins → b.click_count = threshold → b ∈ flagPeaks bins threshold) := by
  constructor
  · simp [flagPeaks, List.mem_filter]
  · intro hb he
    simp [flagPeaks, List.mem_filter, hb, he]

/-- Witness for C2: a bin exactly at threshold `5` is flagged. -/
theorem flagPeaks_iff_count_ge_spot :
    (⟨0, 1, 5, 0, 0⟩ : Bin) ∈ flagPeaks [⟨0, 1, 5, 0, 0⟩] 5 :=
  (flagPeaks_iff_count_ge [⟨0, 1, 5, 0, 0⟩] 5 ⟨0, 1, 5, 0, 0⟩).2
    (by simp) rfl

lemma binCounts_replicate (bins : List Bin) (c : ℝ)
    (hall : ∀ b ∈ bins, b.click_count = c) :
    binCounts bins = List.replicate bins.length c := by
  refine List.eq_replicate_iff.mpr ⟨by simp [binCounts], ?_⟩
  intro x hx
  simp only [binCounts, List.mem_map] at hx
  obtain ⟨b, hb, rfl⟩ := hx
  exact hall b hb

lemma popMean_replicate (n : ℕ) (c : ℝ) (hn : n ≠ 0) :
    popMean (List.replicate n c) = c := by
  unfold popMean
  rw [List.sum_replicate, List.length_replicate, nsmul_eq_mul, mul_comm,
    mul_div_assoc, div_self (Nat.cast_ne_zero.mpr hn), mul_one]

lemma popVariance_replicate (n : ℕ) (c : ℝ) (hn : n ≠ 0) :
    popVariance (List.replicate n c) = 0 := by
  unfold popVariance
  rw [popMean_replicate n c hn, List.map_replicate]
  simp

/-- Counterexample to C3's final clause: for a single bin with zero
clicks the threshold is `0` and the (inclusive) comparison flags the
bin, so the flagged set is not empty. -/
theorem all_zero_bins_are_all_flagged :
    flagPeaks [⟨0, 1, 0, 0, 0⟩]
        (sourceThreshold (binCounts [⟨0, 1, 0, 0, 0⟩])) =
      [⟨0, 1, 0, 0, 0⟩] ∧
    ([(⟨0, 1, 0, 0, 0⟩ : Bin)] : List Bin) ≠ [] := by
  have h0 : sourceThreshold (binCounts [(⟨0, 1, 0, 0, 0⟩ : Bin)]) = 0 := by
    norm_num [binCounts, sourceThreshold, sourceStdDev, sourceVariance,
      sourceMean, Real.sqrt_zero]
  refine ⟨?_, by simp⟩
  rw [h0]
  unfold flagPeaks
  refine List.filter_eq_self.mpr ?_
  intro b hb
  simp only [List.mem_singleton] at hb
  subst hb
  norm_num

/-- C3 (amended). If all bins have equal click counts the standard
deviation is `0` and the threshold equals the mean, so every bin —
including every bin of a uniformly-zero session — is flagged (the
original claim that a uniformly-zero session flags nothing fails: with
threshold `0` the inclusive comparison flags each zero-count bin). -/
theorem equal_counts_flag_every_bin (bins : List Bin) (c : ℝ)
    (hne : bins ≠ []) (hall : ∀ b ∈ bins, b.click_count = c) :
    sourceStdDev (binCounts bins) = 0 ∧
    sourceThreshold (binCounts bins) = sourceMean (binCounts bins) ∧
    flagPeaks bins (sourceThreshold (binCounts bins)) = bins := by
  have hn : bins.length ≠ 0 := fun h => hne (List.length_eq_zero.mp h)
  have hbc := binCounts_replicate bins c hall
  have hvar : sourceVariance (binCounts bins) = 0 := by
    rw [sourceVariance_eq_popVariance, hbc, popVariance_replicate _ _ hn]
  have hsd : sourceStdDev (binCounts bins) = 0 := by
    rw [sourceStdDev, hvar, Real.sqrt_zero]
  have hmean : sourceMean (binCounts bins) = c := by
    rw [sourceMean_eq_popMean, hbc, popMean_replicate _ _ hn]
  have hthr : sourceThreshold (binCounts bins) = sourceMean (binCounts bins) := by
    rw [sourceThreshold, hsd]; ring
  refine ⟨hsd, hthr, ?_⟩
  unfold flagPeaks
  refine List.filter_eq_self.mpr ?_
  intro b hb
  rw [decide_eq_true_eq, hall b hb, hthr, hmean]

/-- Witness for the amended C3 at a concrete uniformly-zero session. -/
theorem equal_counts_flag_every_bin_spot :
    flagPeaks [⟨0, 1, 0, 0, 0⟩, ⟨1, 2, 0, 0, 0⟩]
        (sourceThreshold (binCounts [⟨0, 1, 0, 0, 0⟩, ⟨1, 2, 0, 0, 0⟩])) =
      [⟨0, 1, 0, 0, 0⟩, ⟨1, 2, 0, 0, 0⟩] :=
  (equal_counts_flag_every_bin [⟨0, 1, 0, 0, 0⟩, ⟨1, 2, 0, 0, 0⟩] 0
    (by simp)
    (by
      intro b hb
      rcases List.mem_cons.mp hb with rfl | hb
      · rfl
      · rcases List.mem_singleton.mp hb with rfl
        rfl)).2.2

/-- Counterexample to C4: raising the first bin's count from `0` to `10`
in a two-bin session drops the threshold from `11` to `10`, and raising
the first bin's count from `5` to `6` in the session `[5, 5]` (where the
bin was flagged, `5 ≥ 5`) yields threshold `6.1`, so the increased bin is
no longer flagged. -/
theorem threshold_and_flags_not_monotone :
    sourceThreshold [(10 : ℝ), 10] < sourceThreshold [(0 : ℝ), 10] ∧
    (⟨0, 1, 5, 0, 0⟩ : Bin) ∈
      flagPeaks [⟨0, 1, 5, 0, 0⟩, ⟨1, 2, 5, 0, 0⟩]
        (sourceThreshold (binCounts [⟨0, 1, 5, 0, 0⟩, ⟨1, 2, 5, 0, 0⟩])) ∧
    (⟨0, 1, 6, 0, 0⟩ : Bin) ∉
      flagPeaks [⟨0, 1, 6, 0, 0⟩, ⟨1, 2, 5, 0, 0⟩]
        (sourceThreshold (binCounts [⟨0, 1, 6, 0, 0⟩, ⟨1, 2, 5, 0, 0⟩])) := by
  have hm1 : sourceMean [(0 : ℝ), 10] = 5 := by norm_num [sourceMean]
  have hv1 : sourceVariance [(0 : ℝ), 10] = 25 := by
    norm_num [sourceVariance, hm1]
  have hs1 : sourceStdDev [(0 : ℝ), 10] = 5 := by
    rw [sourceStdDev, hv1, show (25 : ℝ) = 5 ^ 2 by norm_num,
      Real.sqrt_sq (by norm_num)]
  have ht1 : sourceThreshold [(0 : ℝ), 10] = 11 := by
    rw [sourceThreshold, hm1, hs1]; norm_num
  have hm2 : sourceMean [(10 : ℝ), 10] = 10 := by norm_num [sourceMean]
  have hv2 : sourceVariance [(10 : ℝ), 10] = 0 := by
    norm_num [sourceVariance, hm2]
  have ht2 : sourceThreshold [(10 : ℝ), 10] = 10 := by
    rw [sourceThreshold, sourceStdDev, hv2, Real.sqrt_zero, hm2]; norm_num
  have hm3 : sourceMean [(5 : ℝ), 5] = 5 := by norm_num [sourceMean]
  have hv3 : sourceVariance [(5 : ℝ), 5] = 0 := by
    norm_num [sourceVariance, hm3]
  have ht3 : sourceThreshold [(5 : ℝ), 5] = 5 := by
    rw [sourceThreshold, sourceStdDev, hv3, Real.sqrt_zero, hm3]; norm_num
  have hm4 : sourceMean [(6 : ℝ), 5] = 11 / 2 := by norm_num [sourceMean]
  have hv4 : sourceVariance [(6 : ℝ), 5] = 1 / 4 := by
    norm_num [sourceVariance, hm4]
  have hs4 : sourceStdDev [(6 : ℝ), 5] = 1 / 2 := by
    rw [sourceStdDev, hv4, show (1 / 4 : ℝ) = (1 / 2) ^ 2 by norm_num,
      Real.sqrt_sq (by norm_num)]
  have ht4 : sourceThreshold [(6 : ℝ), 5] = 61 / 10 := by
    rw [sourceThreshold, hm4, hs4]; norm_num
  have hbc3 : binCounts [(⟨0, 1, 5, 0, 0⟩ : Bin), ⟨1, 2, 5, 0, 0⟩] =
      [(5 : ℝ), 5] := rfl
  have hbc4 : binCounts [(⟨0, 1, 6, 0, 0⟩ : Bin), ⟨1, 2, 5, 0, 0⟩] =
      [(6 : ℝ), 5] := rfl
  refine ⟨by rw [ht1, ht2]; norm_num, ?_, ?_⟩
  · rw [hbc3, ht3]
    simp [flagPeaks, List.mem_filter]
  · rw [hbc4, ht4]
    simp only [flagPeaks, List.mem_filter, List.mem_cons, decide_eq_true_eq]
    rintro ⟨-, h⟩
    norm_num at h

lemma sum_le_sum_set (l : List ℝ) (i : ℕ) (c' : ℝ) (hi : i < l.length)
    (hc : l[i] ≤ c') : l.sum ≤ (l.set i c').sum := by
  induction l generalizing i with
  | nil => simp at hi
  | cons x xs ih =>
    cases i with
    | zero =>
      simp only [List.set_cons_zero, List.sum_cons]
      exact add_le_add_right hc xs.sum
    | succ n =>
      simp only [List.set_cons_succ, List.sum_cons]
      exact add_le_add_left (ih n (Nat.succ_lt_succ_iff.mp hi) hc) x

/-- C4 (amended). Increasing a single bin's click count while holding
the others fixed never decreases the computed mean; the computed
threshold, however, can decrease, and a bin that was flagged can leave
the flagged set after its own count increases (see the counterexample). -/
theorem increasing_count_never_decreases_mean (bins : List Bin) (i : ℕ)
    (b' : Bin) (hi : i < bins.length)
    (hc : (bins[i]).click_count ≤ b'.click_count) :
    sourceMean (binCounts bins) ≤ sourceMean (binCounts (bins.set i b')) := by
  have hmap : binCounts (bins.set i b') =
      (binCounts bins).set i b'.click_count := by
    simp [binCounts, List.map_set]
  have hlen : (binCounts bins).length = bins.length := by simp [binCounts]
  have hi' : i < (binCounts bins).length := by rw [hlen]; exact hi
  have hget : (binCounts bins)[i] = (bins[i]).click_count := by
    simp [binCounts]
  have hsum : (binCounts bins).sum ≤
      ((binCounts bins).set i b'.click_count).sum :=
    sum_le_sum_set _ i _ hi' (by rw [hget]; exact hc)
  rw [sourceMean_eq_popMean, sourceMean_eq_popMean, hmap]
  unfold popMean
  rw [List.length_set]
  have hpos : (0 : ℝ) < (binCounts bins).length := by
    rw [hlen]
    exact_mod_cast Nat.lt_of_le_of_lt (Nat.zero_le i) hi
  exact (div_le_div_iff_of_pos_right hpos).mpr hsum

/-- Witness for the amended C4: raising a lone bin's count from `5` to
`7` raises the mean. -/
theorem increasing_count_never_decreases_mean_spot :
    sourceMean (binCounts [⟨0, 1, 5, 0, 0⟩]) ≤
      sourceMean (binCounts ([⟨0, 1, 5, 0, 0⟩].set 0 ⟨0, 1, 7, 0, 0⟩)) :=
  increasing_count_never_decreases_mean [⟨0, 1, 5, 0, 0⟩] 0 ⟨0, 1, 7, 0, 0⟩
    (by norm_num) (by norm_num)

/-- C5. The dashboard's note list is a permutation of the input notes
each annotated with `minutesElapsed = floor((created_at - start) /
60000)`, and it is sorted in ascending order of `minutesElapsed`. -/
theorem notes_annotated_and_sorted (notes : List NoteRec) (start : ℤ) :
    (notesWithTimestamps notes start).Perm
      (notes.map (annotateNote start)) ∧
    List.Sorted
      (fun a b : AnnotatedNote => a.minutesElapsed ≤ b.minutesElapsed)
      (notesWithTimestamps notes start) ∧
    ∀ n : NoteRec, (annotateNote start n).minutesElapsed =
      (n.created_at - start).fdiv 60000 := by
  unfold notesWithTimestamps
  refine ⟨List.mergeSort_perm _ _, ?_, fun n => rfl⟩
  have htrans : ∀ a b c : AnnotatedNote,
      decide (a.minutesElapsed ≤ b.minutesElapsed) = true →
      decide (b.minutesElapsed ≤ c.minutesElapsed) = true →
      decide (a.minutesElapsed ≤ c.minutesElapsed) = true := by
    intro a b c hab hbc
    rw [decide_eq_true_eq] at hab hbc ⊢
    exact le_trans hab hbc
  have htotal : ∀ a b : AnnotatedNote,
      (decide (a.minutesElapsed ≤ b.minutesElapsed) ||
        decide (b.minutesElapsed ≤ a.minutesElapsed)) = true := by
    intro a b
    rcases le_total a.minutesElapsed b.minutesElapsed with h | h <;> simp [h]
  have h := @List.sorted_mergeSort AnnotatedNote
    (fun a b => decide (a.minutesElapsed ≤ b.minutesElapsed))
    htrans htotal (notes.map (annotateNote start))
  exact h.imp (fun hab => by rwa [decide_eq_true_eq] at hab)

lemma coe_max_ereal (a b : ℝ) : ((max a b : ℝ) : EReal) = max ↑a ↑b := by
  rcases le_total a b with h | h
  · rw [max_eq_right h, max_eq_right (EReal.coe_le_coe_iff.mpr h)]
  · rw [max_eq_left h, max_eq_left (EReal.coe_le_coe_iff.mpr h)]

lemma foldl_max_coe (l : List ℝ) (a : ℝ) :
    l.foldl (fun (m : EReal) (x : ℝ) => max m (x : EReal)) ↑a =
      ↑(l.foldl max a) := by
  induction l generalizing a with
  | nil => rfl
  | cons x xs ih =>
    simp only [List.foldl_cons]
    rw [← coe_max_ereal, ih]

lemma foldl_max_spec (l : List ℝ) (a : ℝ) :
    (l.foldl max a = a ∨ l.foldl max a ∈ l) ∧ a ≤ l.foldl max a ∧
      ∀ x ∈ l, x ≤ l.foldl max a := by
  induction l generalizing a with
  | nil => simp
  | cons y ys ih =>
    obtain ⟨hmem, hle, hall⟩ := ih (max a y)
    simp only [List.foldl_cons]
    refine ⟨?_, le_trans (le_max_left a y) hle, ?_⟩
    · rcases hmem with h | h
      · rcases max_choice a y with he | he
        · exact Or.inl (by rw [h, he])
        · exact Or.inr (by rw [h, he]; exact List.mem_cons_self y ys)
      · exact Or.inr (List.mem_cons_of_mem y h)
    · intro x hx
      rcases List.mem_cons.mp hx with rfl | hx
      · exact le_trans (le_max_right a x) hle
      · exact hall x hx

/-- C6. For a session with at least one bin, the summary view's
"Peak Confusion" statistic equals the maximum of `bin.percentage` over
the session's bins. -/
theorem peak_confusion_is_max_percentage (bins : List Bin)
    (h : bins ≠ []) :
    ∃ b ∈ bins, peakConfusion bins = (b.percentage : EReal) ∧
      ∀ b' ∈ bins, b'.percentage ≤ b.percentage := by
  obtain ⟨b₀, rest, rfl⟩ := List.exists_cons_of_ne_nil h
  have hfold : peakConfusion (b₀ :: rest) =
      ↑((rest.map (fun b => b.percentage)).foldl max b₀.percentage) := by
    unfold peakConfusion mathMax
    simp only [List.map_cons, List.foldl_cons]
    rw [max_eq_right bot_le, foldl_max_coe]
  obtain ⟨hmem, hle, hall⟩ :=
    foldl_max_spec (rest.map (fun b => b.percentage)) b₀.percentage
  rcases hmem with hv | hv
  · refine ⟨b₀, List.mem_cons_self _ _, by rw [hfold, hv], ?_⟩
    intro b' hb'
    rcases List.mem_cons.mp hb' with rfl | hb'
    · exact le_refl _
    · exact le_trans (hall _ (List.mem_map_of_mem _ hb')) (le_of_eq hv)
  · obtain ⟨b, hb, hbv⟩ := List.mem_map.mp hv
    refine ⟨b, List.mem_cons_of_mem _ hb, by rw [hfold, hbv], ?_⟩
    intro b' hb'
    rw [hbv]
    rcases List.mem_cons.mp hb' with rfl | hb'
    · exact hle
    · exact hall _ (List.mem_map_of_mem _ hb')

/-- Witness for C6 on a concrete two-bin session. -/
theorem peak_confusion_is_max_percentage_spot :
    ∃ b ∈ [(⟨0, 1, 2, 1, 40⟩ : Bin), ⟨1, 2, 3, 2, 80⟩],
      peakConfusion [⟨0, 1, 2, 1, 40⟩, ⟨1, 2, 3, 2, 80⟩] =
        (b.percentage : EReal) ∧
      ∀ b' ∈ [(⟨0, 1, 2, 1, 40⟩ : Bin), ⟨1, 2, 3, 2, 80⟩],
        b'.percentage ≤ b.percentage :=
  peak_confusion_is_max_percentage [⟨0, 1, 2, 1, 40⟩, ⟨1, 2, 3, 2, 80⟩]
    (by simp)

/-- C10. With an empty bin list the summary view's "Peak Confusion"
value is `Math.max()` of no arguments: negative infinity, not `0` and
not an error. -/
theorem peak_confusion_empty_is_neg_infinity :
    peakConfusion [] = ⊥ ∧ peakConfusion [] ≠ 0 ∧ peakConfusion [] < 0 := by
  have hlt : (⊥ : EReal) < 0 := by
    rw [← EReal.coe_zero]
    exact EReal.bot_lt_coe 0
  have hb : peakConfusion [] = ⊥ := rfl
  exact ⟨hb, by rw [hb]; exact ne_of_lt hlt, by rw [hb]; exact hlt⟩

/-- C7. A successful activation starts from the not-started state,
stamps `start_timestamp` with the current time, can never stamp it a
second time (re-activation fails with `InvalidStateError`), and the
dashboard's elapsed-time computation over that session uses exactly the
stamped timestamp. -/
theorem activate_stamps_start_once (s : RegSession) (now now₂ : ℤ)
    (s' : RegSession) (h : activateSession s now = Except.ok s') :
    s.state = SessionState.notStarted ∧
    s'.state = SessionState.active ∧
    s'.start_timestamp = some now ∧
    activateSession s' now₂ = Except.error RegistryError.invalidState ∧
    ∀ notes : List NoteRec,
      notesWithTimestamps notes (s'.start_timestamp.getD 0) =
        notesWithTimestamps notes now := by
  unfold activateSession at h
  cases hs : s.state with
  | notStarted =>
    rw [hs] at h
    obtain rfl := (Except.ok.injEq _ _).mp h
    refine ⟨rfl, rfl, rfl, rfl, ?_⟩
    intro notes
    rfl
  | active => rw [hs] at h; exact absurd h (by simp)
  | ended => rw [hs] at h; exact absurd h (by simp)

/-- Witness for C7: a concrete not-started session activated at time 5
cannot be activated again. -/
theorem activate_stamps_start_once_spot :
    activateSession ⟨1, SessionState.active, some 5, none⟩ 9 =
      Except.error RegistryError.invalidState :=
  (activate_stamps_start_once ⟨1, SessionState.notStarted, none, none⟩ 5 9
    ⟨1, SessionState.active, some 5, none⟩ rfl).2.2.2.1

lemma validCode_handleInputChange (raw : List Char) :
    validCode (handleInputChange raw) = true := by
  unfold validCode handleInputChange
  rw [Bool.and_eq_true, decide_eq_true_eq]
  constructor
  · rw [List.length_take]
    exact min_le_left _ _
  · rw [List.all_eq_true]
    intro x hx
    exact List.of_mem_filter (List.mem_of_mem_take hx)

/-- C8. After any sequence of keystrokes and submissions, the join-code
field holds at most 4 decimal digits, and every join request ever
issued carries a code of exactly 4 decimal digits. -/
theorem join_code_always_sanitized (evs : List JoinEvent) :
    validCode (runJoin evs).code = true ∧
    (runJoin evs).joinRequests.all fourDigitCode = true := by
  suffices h : ∀ st : JoinUIState, validCode st.code = true →
      st.joinRequests.all fourDigitCode = true →
      validCode (evs.foldl joinStep st).code = true ∧
      (evs.foldl joinStep st).joinRequests.all fourDigitCode = true by
    exact h joinInit rfl rfl
  induction evs with
  | nil => exact fun st h1 h2 => ⟨h1, h2⟩
  | cons e rest ih =>
    intro st h1 h2
    rw [List.foldl_cons]
    apply ih
    · cases e with
      | input raw => exact validCode_handleInputChange raw
      | submit =>
        unfold joinStep
        by_cases hlen : st.code.length ≠ 4
        · rw [if_pos hlen]; exact h1
        · rw [if_neg hlen]; exact h1
    · cases e with
      | input raw => exact h2
      | submit =>
        unfold joinStep
        by_cases hlen : st.code.length ≠ 4
        · rw [if_pos hlen]; exact h2
        · rw [if_neg hlen]
          simp only [List.all_append, List.all_cons, List.all_nil,
            Bool.and_true, Bool.and_eq_true]
          refine ⟨h2, ?_⟩
          unfold fourDigitCode
          rw [Bool.and_eq_true, decide_eq_true_eq]
          have hd := (Bool.and_eq_true _ _).mp h1
          exact ⟨Classical.not_not.mp hlen, hd.2⟩

/-- C9. When the polled session-active flag is false, a confusion click
emits no network request at all, and the submit button is disabled. -/
theorem inactive_click_sends_nothing (sessionId anonId : ℕ) (note : String)
    (serverCount : ℕ) :
    (handleConfusionClick false sessionId anonId note serverCount).filter
        isNetworkRequest = [] ∧
    confusionButtonDisabled false = true :=
  ⟨rfl, rfl⟩

end CrowdQA
